import Mathlib

/-!
Shallow embedding of the LifeOS offline-first synchronization core:
the Dexie tables that matter to the sync engine (src/lib/db.ts) and the
SyncEngine class (src/lib/sync-engine.ts), together with one representative
entity-mutating operation, createExpense (src/lib/ai-actions/expenses.ts).

The payload column of the outbox (data?: any) is modeled by a type
parameter, written a.  Timestamps (JS Date values) are modeled as
natural numbers (milliseconds since the epoch); auto-increment primary
keys as naturals.

Modelled from the spec: the remote collaborator reached through the
supabase client (src/lib/supabase.ts is not present in the sources; only
its import site in sync-engine.ts is).  Per the specification, each
outbox entry dispatches one upsert or delete-by-id call to the remote
backend, and a replay can fail (network error, remote rejection,
timeout), in which case the failure surfaces as an exception in
the caller of syncItem.  The outcome of each replay is therefore an oracle
parameter (ok : SyncQueue a -> Bool): ok item = false means the remote
call for that entry failed and syncItem threw.
-/

namespace LifeOS

/-- Operation kinds of an outbox entry (src/lib/db.ts, SyncQueue.operation). -/
inductive Operation : Type where
  | create
  | update
  | delete
deriving DecidableEq

/-- One row of the syncQueue table (src/lib/db.ts, interface SyncQueue).
The primary key id is assigned by Dexie auto-increment; data is the
untyped payload column. -/
structure SyncQueue (α : Type) : Type where
  id : Nat
  tableName : String
  operation : Operation
  recordId : String
  data : Option α
  timestamp : Nat
  attempts : Nat
deriving DecidableEq

/-- One row of the expenses table (src/lib/db.ts, interface Expense),
the representative entity table for the claims: every entity table
carries the same owner and synced columns and is treated identically by
the engine.  The JS number amount is modeled as a rational. -/
structure Expense : Type where
  id : Nat
  amount : Rat
  category : String
  description : Option String
  date : Nat
  createdAt : Nat
  owner_id : String
  synced : Bool
deriving DecidableEq

/-- One remote request as dispatched by syncItem
(src/lib/sync-engine.ts:68-80): create and update both become an upsert
of the payload; delete becomes a delete-by-id on the named table. -/
inductive RemoteCall (α : Type) : Type where
  | upsert (tableName : String) (payload : Option α)
  | deleteById (tableName : String) (recordId : String)
deriving DecidableEq

/-- The state the claims range over: the local Dexie tables the engine
touches (syncQueue with its auto-increment counter, and the expenses
entity table with its counter) plus the remote backend double, an
association list keyed by (table name, record id). -/
structure World (α : Type) : Type where
  syncQueue : List (SyncQueue α)
  nextQid : Nat
  expenses : List Expense
  nextEid : Nat
  remote : List ((String × String) × α)
deriving DecidableEq

/-- The SyncEngine instance fields (src/lib/sync-engine.ts:4-6) together
with the world they act on. -/
structure Engine (α : Type) : Type where
  isOnline : Bool
  isSyncing : Bool
  world : World α
deriving DecidableEq

/-- getStatus (src/lib/sync-engine.ts:82-87). -/
def getStatus (e : Engine α) : Bool × Bool :=
  (e.isOnline, e.isSyncing)

/-- db.syncQueue.delete(i): removes the row with primary key i; a no-op
when no such row exists. -/
def queueDelete (i : Nat) (q : List (SyncQueue α)) : List (SyncQueue α) :=
  q.filter (fun e => e.id ≠ i)

/-- db.syncQueue.update(i, attempts := a): sets the attempts column of
the row with primary key i; a no-op when no such row exists. -/
def queueSetAttempts (i a : Nat) (q : List (SyncQueue α)) : List (SyncQueue α) :=
  q.map (fun e => if e.id = i then { e with attempts := a } else e)

/-- Lookup in the remote double. -/
def rget (k : String × String) : List ((String × String) × α) → Option α
  | [] => none
  | (k1, v) :: rest => if k1 = k then some v else rget k rest

/-- Idempotent upsert into the remote double. -/
def rset (k : String × String) (v : α) : List ((String × String) × α) → List ((String × String) × α)
  | [] => [(k, v)]
  | (k1, v1) :: rest => if k1 = k then (k, v) :: rest else (k1, v1) :: rset k v rest

/-- Idempotent delete-by-id from the remote double. -/
def rdel (k : String × String) : List ((String × String) × α) → List ((String × String) × α)
  | [] => []
  | (k1, v1) :: rest => if k1 = k then rdel k rest else (k1, v1) :: rdel k rest

/-- The ordering used by the drain snapshot read,
db.syncQueue.orderBy(timestamp).toArray() (src/lib/sync-engine.ts:46):
IndexedDB returns index rows in ascending key order and breaks ties on
the timestamp key by ascending primary key. -/
def entryLe (a b : SyncQueue α) : Bool :=
  decide (a.timestamp < b.timestamp ∨ (a.timestamp = b.timestamp ∧ a.id ≤ b.id))

/-- Insertion step of the snapshot ordering. -/
def insertSorted (e : SyncQueue α) : List (SyncQueue α) → List (SyncQueue α)
  | [] => [e]
  | x :: xs => if entryLe e x then e :: x :: xs else x :: insertSorted e xs

/-- The snapshot the drain loop iterates over: the queue sorted by
(timestamp, primary key). -/
def sortByTimestamp (q : List (SyncQueue α)) : List (SyncQueue α) :=
  q.foldr insertSorted []

/-- The one remote request syncItem (src/lib/sync-engine.ts:68-80)
issues for an entry. -/
def syncItemCall (e : SyncQueue α) : RemoteCall α :=
  match e.operation with
  | Operation.create => RemoteCall.upsert e.tableName e.data
  | Operation.update => RemoteCall.upsert e.tableName e.data
  | Operation.delete => RemoteCall.deleteById e.tableName e.recordId

/-- Effect of a successful syncItem call on the remote double.  The
upsert keys on the id column of the payload record itself, which every enqueuer
sets equal to recordId; the model keys on recordId directly.  An upsert
whose payload is absent has no effect to apply. -/
def syncItemApply (e : SyncQueue α) (r : List ((String × String) × α)) : List ((String × String) × α) :=
  match e.operation, e.data with
  | Operation.delete, _ => rdel (e.tableName, e.recordId) r
  | _, some p => rset (e.tableName, e.recordId) p r
  | _, none => r

/-- One iteration of the drain loop (src/lib/sync-engine.ts:48-62) for
snapshot entry item.  ok item = true is the try branch: the replay
succeeded, its effect lands remotely and the entry row is deleted.
ok item = false is the catch branch: syncItem threw, the stored
row has its attempts column set to item.attempts + 1, and if the snapshot value
item.attempts was already at least 5 the row is deleted (evicted).
Local Dexie operations are modeled as non-failing here; an exception
escaping them is treated in syncWithBody below. -/
def processItem (ok : SyncQueue α → Bool) (w : World α) (item : SyncQueue α) : World α :=
  if ok item then
    { w with
        remote := syncItemApply item w.remote,
        syncQueue := queueDelete item.id w.syncQueue }
  else if item.attempts ≥ 5 then
    { w with syncQueue := queueDelete item.id (queueSetAttempts item.id (item.attempts + 1) w.syncQueue) }
  else
    { w with syncQueue := queueSetAttempts item.id (item.attempts + 1) w.syncQueue }

/-- One drain-loop iteration inside the exception monad.  The Except
layer records an exception escaping the per-item handler; both the
success branch and the catch branch of the source return normally, so
every step is Except.ok by the very shape of the code. -/
def drainStep (ok : SyncQueue α → Bool) (acc : World α × List (RemoteCall α)) (item : SyncQueue α) :
    Except String (World α × List (RemoteCall α)) :=
  Except.ok (processItem ok acc.1 item, acc.2 ++ [syncItemCall item])

/-- The body of the try block of sync() (src/lib/sync-engine.ts:45-62):
read the snapshot once, then fold the loop over it, collecting the
remote requests issued. -/
def drainBody (ok : SyncQueue α → Bool) (w : World α) : Except String (World α × List (RemoteCall α)) :=
  List.foldlM (drainStep ok) (w, []) (sortByTimestamp w.syncQueue)

/-- Run-to-completion result of the try block: final world and the list
of remote requests issued, in order. -/
def drainPassT (ok : SyncQueue α → Bool) (w : World α) : World α × List (RemoteCall α) :=
  match drainBody ok w with
  | Except.ok r => r
  | Except.error _ => (w, [])

/-- Final world of one drain pass. -/
def drainPass (ok : SyncQueue α → Bool) (w : World α) : World α :=
  (drainPassT ok w).1

/-- sync() (src/lib/sync-engine.ts:40-66), run-to-completion semantics
on the single-threaded event loop: the reentrancy/offline guard, then
isSyncing is raised, the try block runs, and the finally clause lowers
isSyncing again.  Returns the new engine state and the remote requests
issued. -/
def sync (ok : SyncQueue α → Bool) (e : Engine α) : Engine α × List (RemoteCall α) :=
  if e.isSyncing || !e.isOnline then (e, [])
  else
    let r := drainPassT ok e.world
    ({ isOnline := e.isOnline, isSyncing := false, world := r.1 }, r.2)

/-- sync() with the try-block body abstracted (src/lib/sync-engine.ts:
40-66): body returns the possibly partially updated world together with
an exception that escaped the try block, if any (for example from the
snapshot read or a db.syncQueue.update call); the finally clause resets
isSyncing in either case and the exception propagates to the caller. -/
def syncWithBody (body : World α → World α × Option String) (e : Engine α) :
    Engine α × Option String :=
  if e.isSyncing || !e.isOnline then (e, none)
  else
    let r := body e.world
    ({ isOnline := e.isOnline, isSyncing := false, world := r.1 }, r.2)

/-- addToQueue (src/lib/sync-engine.ts:25-38): append a fresh outbox row
with attempts 0 and the current timestamp, then, if online, trigger
sync(). -/
def addToQueue (ok : SyncQueue α → Bool) (now : Nat) (tableName : String) (operation : Operation)
    (recordId : String) (d : Option α) (e : Engine α) : Engine α × List (RemoteCall α) :=
  let entry : SyncQueue α :=
    { id := e.world.nextQid, tableName := tableName, operation := operation,
      recordId := recordId, data := d, timestamp := now, attempts := 0 }
  let e1 : Engine α :=
    { e with
        world :=
          { e.world with
              syncQueue := e.world.syncQueue ++ [entry],
              nextQid := e.world.nextQid + 1 } }
  if e1.isOnline then sync ok e1 else (e1, [])

/-- Where an in-flight invocation of sync() is suspended: reading holds
between raising isSyncing and the completion of the awaited snapshot
read (src/lib/sync-engine.ts:46); looping holds inside the for loop,
carrying the part of the snapshot not yet processed. -/
inductive DrainPhase (α : Type) : Type where
  | reading
  | looping (rest : List (SyncQueue α))
deriving DecidableEq

/-- The sync engine with the suspension points of sync() made explicit:
the run-to-completion function sync above cut at its await points, so
that event-loop interleavings (connectivity callbacks, overlapping
sync() calls) can be expressed. -/
structure Config (α : Type) : Type where
  isOnline : Bool
  isSyncing : Bool
  world : World α
  draining : Option (DrainPhase α)
deriving DecidableEq

/-- Events of the event-loop model.  offline and online are the
connectivity callbacks (src/lib/sync-engine.ts:16-23); syncStart is an
invocation of sync() running up to its first await; readQueue is the
completion of the snapshot read; drainItem ok resolves the replay of the
next entry with outcome ok; drainDone is the loop finishing and the finally
clause running; drainAbort is an exception escaping the try block, with
the finally clause still running; enqueue is an addToQueue call. -/
inductive Event (α : Type) : Type where
  | offline
  | online
  | syncStart
  | readQueue
  | drainItem (ok : Bool)
  | drainDone
  | drainAbort
  | enqueue (tableName : String) (operation : Operation) (recordId : String)
      (d : Option α) (now : Nat)
deriving DecidableEq

/-- The guard and flag-raise prefix of sync()
(src/lib/sync-engine.ts:41-43), which runs atomically: no await
separates the guard check from the assignment to isSyncing. -/
def startGuard (c : Config α) : Config α :=
  if c.isSyncing || !c.isOnline then c
  else { c with isSyncing := true, draining := some DrainPhase.reading }

/-- One event-loop step: the configuration after the event and the
remote requests it issued. -/
def step : Event α → Config α → Config α × List (RemoteCall α)
  | Event.offline, c => ({ c with isOnline := false }, [])
  | Event.online, c => (startGuard { c with isOnline := true }, [])
  | Event.syncStart, c => (startGuard c, [])
  | Event.readQueue, c =>
    match c.draining with
    | some DrainPhase.reading =>
      ({ c with draining := some (DrainPhase.looping (sortByTimestamp c.world.syncQueue)) }, [])
    | _ => (c, [])
  | Event.drainItem ok, c =>
    match c.draining with
    | some (DrainPhase.looping (item :: rest)) =>
      ({ c with
          world := processItem (fun _ => ok) c.world item,
          draining := some (DrainPhase.looping rest) }, [syncItemCall item])
    | _ => (c, [])
  | Event.drainDone, c =>
    match c.draining with
    | some (DrainPhase.looping []) => ({ c with isSyncing := false, draining := none }, [])
    | _ => (c, [])
  | Event.drainAbort, c =>
    match c.draining with
    | some _ => ({ c with isSyncing := false, draining := none }, [])
    | none => (c, [])
  | Event.enqueue tableName operation recordId d now, c =>
    let entry : SyncQueue α :=
      { id := c.world.nextQid, tableName := tableName, operation := operation,
        recordId := recordId, data := d, timestamp := now, attempts := 0 }
    let c1 : Config α :=
      { c with
          world :=
            { c.world with
                syncQueue := c.world.syncQueue ++ [entry],
                nextQid := c.world.nextQid + 1 } }
    (if c1.isOnline then startGuard c1 else c1, [])

/-- The world of a freshly created database: all tables empty. -/
def emptyWorld (α : Type) : World α :=
  { syncQueue := [], nextQid := 0, expenses := [], nextEid := 0, remote := [] }

/-- The engine configuration right after construction
(src/lib/sync-engine.ts:8-14): isOnline mirrors navigator.onLine,
isSyncing is false, no drain is in flight. -/
def initConfig (α : Type) (online : Bool) : Config α :=
  { isOnline := online, isSyncing := false, world := emptyWorld α, draining := none }

/-- The configuration reached from c by a list of event-loop steps. -/
def reach (c : Config α) (evs : List (Event α)) : Config α :=
  evs.foldl (fun c ev => (step ev c).1) c

/-- The replay oracle in which every remote call fails. -/
def failAll : SyncQueue α → Bool := fun _ => false

/-- The replay oracle in which every remote call succeeds. -/
def allOk : SyncQueue α → Bool := fun _ => true

/-- n successive drain passes (successive invocations of sync(), e.g.
from the 30-second timer in sync-provider.tsx), with the cumulative
remote-request trace. -/
def syncPasses (ok : SyncQueue α → Bool) : Nat → Engine α → Engine α × List (RemoteCall α)
  | 0, e => (e, [])
  | n + 1, e =>
    let p := sync ok e
    let q := syncPasses ok n p.1
    (q.1, p.2 ++ q.2)

/-- Result record of an AI action (src/lib/ai-actions, ActionResult);
the presentation fields message, data and actionId are elided, keeping
the success flag and the error tag. -/
structure ActionResult : Type where
  success : Bool
  error : Option String
deriving DecidableEq

/-- Valid expense categories (src/lib/ai-actions/expenses.ts:19-22). -/
def VALID_CATEGORIES : List String :=
  ["Food & Dining", "Transportation", "Shopping", "Entertainment",
   "Bills & Utilities", "Healthcare", "Education", "Other"]

/-- createExpense (src/lib/ai-actions/expenses.ts:58-114).  The amount
type check (typeof params.amount) is subsumed by the Lean typing; san
abstracts sanitizeInput from ai-actions/index; the db.expenses.add call
assigns the auto-increment key and is modeled as non-failing (its catch
branch handles local-storage failure only).  Note that the function
writes the expenses table and nothing else: in particular it never
touches the syncQueue table and never calls addToQueue. -/
def createExpense (san : String → String) (now : Nat) (amount : Rat) (category : String)
    (description : Option String) (userId : String) (w : World α) : ActionResult × World α :=
  if amount ≤ 0 then
    ({ success := false, error := some "Invalid amount" }, w)
  else if amount > 999999 then
    ({ success := false, error := some "Amount too large" }, w)
  else
    let cat := if category ∈ VALID_CATEGORIES then category else "Other"
    let desc := description.map san
    let exp : Expense :=
      { id := w.nextEid, amount := amount, category := cat, description := desc,
        date := now, createdAt := now, owner_id := userId, synced := false }
    ({ success := true, error := none },
     { w with expenses := w.expenses ++ [exp], nextEid := w.nextEid + 1 })

/-! Shared lemmas about the embedding. -/

/-- The strict version of the snapshot ordering: how two outbox rows
created one before the other compare, timestamps being nondecreasing in
creation order and primary keys strictly increasing. -/
def entryLex (a b : SyncQueue α) : Prop :=
  a.timestamp < b.timestamp ∨ (a.timestamp = b.timestamp ∧ a.id < b.id)

instance (a b : SyncQueue α) : Decidable (entryLex a b) :=
  inferInstanceAs (Decidable (a.timestamp < b.timestamp ∨ (a.timestamp = b.timestamp ∧ a.id < b.id)))

lemma entryLe_of_lex {a b : SyncQueue α} (h : entryLex a b) : entryLe a b = true := by
  rcases h with h | ⟨h1, h2⟩
  · exact decide_eq_true (Or.inl h)
  · exact decide_eq_true (Or.inr ⟨h1, Nat.le_of_lt h2⟩)

lemma mem_insertSorted {x e : SyncQueue α} :
    ∀ {l : List (SyncQueue α)}, x ∈ insertSorted e l ↔ x = e ∨ x ∈ l := by
  intro l
  induction l with
  | nil => simp [insertSorted]
  | cons a t ih =>
    cases h : entryLe e a with
    | true => simp [insertSorted, h]
    | false =>
      simp only [insertSorted, h, Bool.false_eq_true, if_false, List.mem_cons, ih]
      tauto

lemma insertSorted_perm (e : SyncQueue α) :
    ∀ (l : List (SyncQueue α)), (insertSorted e l).Perm (e :: l) := by
  intro l
  induction l with
  | nil => simp [insertSorted]
  | cons a t ih =>
    cases h : entryLe e a with
    | true => simp [insertSorted, h]
    | false =>
      simp only [insertSorted, h, Bool.false_eq_true, if_false]
      exact (ih.cons a).trans (List.Perm.swap e a t)

lemma sortByTimestamp_perm :
    ∀ (q : List (SyncQueue α)), (sortByTimestamp q).Perm q := by
  intro q
  induction q with
  | nil => simp [sortByTimestamp]
  | cons a t ih =>
    have h : sortByTimestamp (a :: t) = insertSorted a (sortByTimestamp t) := rfl
    rw [h]
    exact (insertSorted_perm a _).trans (ih.cons a)

lemma mem_sortByTimestamp {x : SyncQueue α} {q : List (SyncQueue α)} :
    x ∈ sortByTimestamp q ↔ x ∈ q :=
  (sortByTimestamp_perm q).mem_iff

/-- A queue already in creation order (strictly increasing under the
snapshot ordering) is returned by the snapshot read unchanged. -/
lemma sortByTimestamp_eq_self :
    ∀ {q : List (SyncQueue α)}, List.Chain' entryLex q → sortByTimestamp q = q := by
  intro q
  induction q with
  | nil => intro _; rfl
  | cons a t ih =>
    intro h
    have h1 : sortByTimestamp (a :: t) = insertSorted a (sortByTimestamp t) := rfl
    rw [h1, ih h.tail]
    cases t with
    | nil => rfl
    | cons b t2 =>
      have hab : entryLex a b := (List.chain'_cons.mp h).1
      simp [insertSorted, entryLe_of_lex hab]

lemma rget_rset (k : String × String) (v : α) :
    ∀ (r : List ((String × String) × α)), rget k (rset k v r) = some v := by
  intro r
  induction r with
  | nil => simp [rset, rget]
  | cons p rest ih =>
    obtain ⟨k1, v1⟩ := p
    by_cases h : k1 = k
    · simp [rset, h, rget]
    · simp [rset, h, rget, ih]

lemma rget_rdel (k : String × String) :
    ∀ (r : List ((String × String) × α)), rget k (rdel k r) = none := by
  intro r
  induction r with
  | nil => simp [rdel, rget]
  | cons p rest ih =>
    obtain ⟨k1, v1⟩ := p
    by_cases h : k1 = k
    · simp [rdel, h, ih]
    · simp [rdel, h, rget, ih]

/-- The drain loop, folded in the exception monad, never leaves the ok
track: both branches of the per-item handler return normally, so the
fold equals a plain fold, and the trace lists one remote request per
snapshot entry, in snapshot order. -/
lemma foldlM_drainStep (ok : SyncQueue α → Bool) :
    ∀ (S : List (SyncQueue α)) (w : World α) (tr : List (RemoteCall α)),
      List.foldlM (drainStep ok) (w, tr) S =
        Except.ok (S.foldl (processItem ok) w, tr ++ S.map syncItemCall) := by
  intro S
  induction S with
  | nil => intro w tr; simp [List.foldlM]; rfl
  | cons a S ih =>
    intro w tr
    rw [List.foldlM_cons]
    show (List.foldlM (drainStep ok) (processItem ok w a, tr ++ [syncItemCall a]) S) = _
    rw [ih]
    simp

lemma drainPassT_eq (ok : SyncQueue α → Bool) (w : World α) :
    drainPassT ok w =
      ((sortByTimestamp w.syncQueue).foldl (processItem ok) w,
        (sortByTimestamp w.syncQueue).map syncItemCall) := by
  unfold drainPassT drainBody
  rw [foldlM_drainStep]
  simp

lemma processItem_expenses (ok : SyncQueue α → Bool) (w : World α) (item : SyncQueue α) :
    (processItem ok w item).expenses = w.expenses := by
  unfold processItem
  split
  · rfl
  · split <;> rfl

lemma foldl_processItem_expenses (ok : SyncQueue α → Bool) :
    ∀ (S : List (SyncQueue α)) (w : World α),
      (S.foldl (processItem ok) w).expenses = w.expenses := by
  intro S
  induction S with
  | nil => intro w; rfl
  | cons a S ih => intro w; rw [List.foldl_cons, ih, processItem_expenses]

lemma queueDelete_mem_ne {x : SyncQueue α} {i : Nat} (hne : x.id ≠ i)
    {q : List (SyncQueue α)} (hx : x ∈ q) : x ∈ queueDelete i q := by
  unfold queueDelete
  simp [List.mem_filter, hx, hne]

lemma queueSetAttempts_mem_ne {x : SyncQueue α} {i a : Nat} (hne : x.id ≠ i)
    {q : List (SyncQueue α)} (hx : x ∈ q) : x ∈ queueSetAttempts i a q := by
  unfold queueSetAttempts
  have h := List.mem_map_of_mem (fun e => if e.id = i then { e with attempts := a } else e) hx
  simpa [hne] using h

lemma processItem_mem_ne (ok : SyncQueue α → Bool) (w : World α) {item x : SyncQueue α}
    (hne : x.id ≠ item.id) (hx : x ∈ w.syncQueue) : x ∈ (processItem ok w item).syncQueue := by
  unfold processItem
  split
  · exact queueDelete_mem_ne hne hx
  · split
    · exact queueDelete_mem_ne hne (queueSetAttempts_mem_ne hne hx)
    · exact queueSetAttempts_mem_ne hne hx

lemma foldl_processItem_mem (ok : SyncQueue α → Bool) {x : SyncQueue α} :
    ∀ (S : List (SyncQueue α)) (w : World α), (∀ i ∈ S, x.id ≠ i.id) → x ∈ w.syncQueue →
      x ∈ (S.foldl (processItem ok) w).syncQueue := by
  intro S
  induction S with
  | nil => intro w _ hx; exact hx
  | cons a S ih =>
    intro w hS hx
    rw [List.foldl_cons]
    exact ih _ (fun i hi => hS i (List.mem_cons_of_mem a hi))
      (processItem_mem_ne ok w (hS a (List.mem_cons_self a S)) hx)

/-- The catch branch below the eviction bound: the row keeps all its
columns, with attempts set to the snapshot value plus one, and stays in
the queue. -/
lemma processItem_mem_fail (ok : SyncQueue α → Bool) (w : World α) {e : SyncQueue α}
    (hok : ok e = false) (h5 : e.attempts < 5) (he : e ∈ w.syncQueue) :
    { e with attempts := e.attempts + 1 } ∈ (processItem ok w e).syncQueue := by
  unfold processItem
  rw [hok]
  rw [if_neg (by simp)]
  rw [if_neg (by omega)]
  unfold queueSetAttempts
  have h := List.mem_map_of_mem (fun x => if x.id = e.id then { x with attempts := e.attempts + 1 } else x) he
  simpa using h

lemma foldl_processItem_syncQueue_ok (ok : SyncQueue α → Bool) :
    ∀ (S : List (SyncQueue α)) (w : World α), (∀ e ∈ S, ok e = true) →
      (S.foldl (processItem ok) w).syncQueue =
        S.foldl (fun q i => queueDelete i.id q) w.syncQueue := by
  intro S
  induction S with
  | nil => intro w _; rfl
  | cons a S ih =>
    intro w hS
    rw [List.foldl_cons, List.foldl_cons,
      ih _ (fun e he => hS e (List.mem_cons_of_mem a he))]
    unfold processItem
    rw [if_pos (hS a (List.mem_cons_self a S))]

lemma foldl_queueDelete_eq_filter :
    ∀ (S : List (SyncQueue α)) (q : List (SyncQueue α)),
      S.foldl (fun q i => queueDelete i.id q) q =
        q.filter (fun e => decide (∀ i ∈ S, e.id ≠ i.id)) := by
  intro S
  induction S with
  | nil =>
    intro q
    have h : ∀ e ∈ q, (decide (∀ i ∈ ([] : List (SyncQueue α)), e.id ≠ i.id)) = true := by
      intro e _
      exact decide_eq_true (fun i hi => absurd hi (List.not_mem_nil i))
    exact (List.filter_eq_self.mpr h).symm
  | cons a S ih =>
    intro q
    rw [List.foldl_cons, ih]
    unfold queueDelete
    rw [List.filter_filter]
    apply List.filter_congr
    intro e _
    rw [← Bool.decide_and, decide_eq_decide]
    constructor
    · rintro ⟨h1, h2⟩ i hi
      rcases List.mem_cons.mp hi with rfl | hi2
      · exact h2
      · exact h1 i hi2
    · intro h
      exact ⟨fun i hi => h i (List.mem_cons_of_mem a hi), h a (List.mem_cons_self a S)⟩

/-- When every replay of the snapshot succeeds, the pass empties the
queue: each entry is deleted on success. -/
lemma foldl_processItem_allOk_nil (ok : SyncQueue α → Bool) (w : World α)
    (hok : ∀ e ∈ w.syncQueue, ok e = true) :
    ((sortByTimestamp w.syncQueue).foldl (processItem ok) w).syncQueue = [] := by
  rw [foldl_processItem_syncQueue_ok ok _ _
    (fun e he => hok e (mem_sortByTimestamp.mp he)),
    foldl_queueDelete_eq_filter]
  apply List.filter_eq_nil_iff.mpr
  intro e he
  simp only [decide_eq_true_eq]
  intro h
  exact h e (mem_sortByTimestamp.mpr he) rfl

lemma foldl_processItem_remote_allOk :
    ∀ (S : List (SyncQueue α)) (w : World α),
      (S.foldl (processItem allOk) w).remote =
        S.foldl (fun r i => syncItemApply i r) w.remote := by
  intro S
  induction S with
  | nil => intro w; rfl
  | cons a S ih =>
    intro w
    rw [List.foldl_cons, List.foldl_cons, ih]
    rfl

/-- The local state the last outbox entry for a record promises the
remote store: the payload snapshot for an upsert, absence for a delete. -/
def finalState (e : SyncQueue α) : Option α :=
  match e.operation with
  | Operation.delete => none
  | _ => e.data

lemma rget_foldl_syncItemApply (tn rid : String) :
    ∀ (S : List (SyncQueue α)) (hne : S ≠ []) (r : List ((String × String) × α)),
      (∀ e ∈ S, e.tableName = tn ∧ e.recordId = rid) →
      (∀ e ∈ S, e.operation = Operation.delete ∨ e.data.isSome = true) →
      rget (tn, rid) (S.foldl (fun r i => syncItemApply i r) r) = finalState (S.getLast hne) := by
  intro S
  induction S with
  | nil => intro h; exact absurd rfl h
  | cons a S ih =>
    intro _ r hsame hdata
    cases S with
    | nil =>
      obtain ⟨htn, hrid⟩ := hsame a (List.mem_cons_self a [])
      rcases hdata a (List.mem_cons_self a []) with hop | hd
      · simp [List.foldl_cons, syncItemApply, hop, finalState, htn, hrid, rget_rdel]
      · obtain ⟨p, hp⟩ := Option.isSome_iff_exists.mp hd
        cases hop : a.operation <;>
          simp [List.foldl_cons, syncItemApply, hop, hp, finalState, htn, hrid,
            rget_rset, rget_rdel]
    | cons b S2 =>
      rw [List.foldl_cons, List.getLast_cons (List.cons_ne_nil b S2)]
      exact ih (List.cons_ne_nil b S2) _
        (fun e he => hsame e (List.mem_cons_of_mem a he))
        (fun e he => hdata e (List.mem_cons_of_mem a he))

lemma syncItemCall_setAttempts (e : SyncQueue α) (a : Nat) :
    syncItemCall { e with attempts := a } = syncItemCall e := rfl

lemma drainPassT_single (ok : SyncQueue α → Bool) (w : World α) (e : SyncQueue α)
    (hq : w.syncQueue = [e]) :
    drainPassT ok w = (processItem ok w e, [syncItemCall e]) := by
  rw [drainPassT_eq, hq]
  rfl

lemma processItem_single_fail_lt (ok : SyncQueue α → Bool) (w : World α) {e : SyncQueue α}
    (hok : ok e = false) (h5 : e.attempts < 5) (hq : w.syncQueue = [e]) :
    processItem ok w e = { w with syncQueue := [{ e with attempts := e.attempts + 1 }] } := by
  unfold processItem
  rw [hok]
  rw [if_neg (by simp), if_neg (by omega), hq]
  unfold queueSetAttempts
  simp

lemma processItem_single_fail_ge (ok : SyncQueue α → Bool) (w : World α) {e : SyncQueue α}
    (hok : ok e = false) (h5 : e.attempts ≥ 5) (hq : w.syncQueue = [e]) :
    processItem ok w e = { w with syncQueue := [] } := by
  unfold processItem
  rw [hok]
  rw [if_neg (by simp), if_pos h5, hq]
  unfold queueSetAttempts queueDelete
  simp

lemma sync_run (ok : SyncQueue α → Bool) (w : World α) :
    sync ok { isOnline := true, isSyncing := false, world := w } =
      ({ isOnline := true, isSyncing := false, world := (drainPassT ok w).1 },
        (drainPassT ok w).2) := by
  simp [sync]

lemma sync_single_fail (w : World α) {e : SyncQueue α} (hq : w.syncQueue = [e])
    (h5 : e.attempts < 5) :
    sync failAll { isOnline := true, isSyncing := false, world := w } =
      ({ isOnline := true, isSyncing := false,
         world := { w with syncQueue := [{ e with attempts := e.attempts + 1 }] } },
        [syncItemCall e]) := by
  rw [sync_run, drainPassT_single failAll w e hq,
    processItem_single_fail_lt failAll w rfl h5 hq]

lemma sync_single_evict (w : World α) {e : SyncQueue α} (hq : w.syncQueue = [e])
    (h5 : e.attempts ≥ 5) :
    sync failAll { isOnline := true, isSyncing := false, world := w } =
      ({ isOnline := true, isSyncing := false, world := { w with syncQueue := [] } },
        [syncItemCall e]) := by
  rw [sync_run, drainPassT_single failAll w e hq,
    processItem_single_fail_ge failAll w rfl h5 hq]

lemma sync_empty (ok : SyncQueue α → Bool) (w : World α) (hq : w.syncQueue = []) :
    sync ok { isOnline := true, isSyncing := false, world := w } =
      ({ isOnline := true, isSyncing := false, world := w }, []) := by
  rw [sync_run, drainPassT_eq, hq]
  rfl

lemma syncPasses_empty (ok : SyncQueue α → Bool) (w : World α) (hq : w.syncQueue = []) :
    ∀ (n : Nat), syncPasses ok n { isOnline := true, isSyncing := false, world := w } =
      ({ isOnline := true, isSyncing := false, world := w }, []) := by
  intro n
  induction n with
  | zero => rfl
  | succ n ih =>
    show (let p := sync ok _; let q := syncPasses ok n p.1; (q.1, p.2 ++ q.2)) = _
    rw [sync_empty ok w hq]
    simp only []
    rw [ih]
    rfl

/-- Full multi-pass characterization of a single always-failing outbox
entry: up to and including the pass that brings the stored attempts
counter to 5 the entry survives, each pass sending one more failing
remote request; the pass after that sends a sixth request and evicts
the row; every later pass finds an empty queue. -/
lemma syncPasses_single_fail :
    ∀ (n : Nat) (w : World α) (e : SyncQueue α), w.syncQueue = [e] → e.attempts ≤ 5 →
      syncPasses failAll n { isOnline := true, isSyncing := false, world := w } =
        if e.attempts + n ≤ 5 then
          ({ isOnline := true, isSyncing := false,
             world := { w with syncQueue := [{ e with attempts := e.attempts + n }] } },
            List.replicate n (syncItemCall e))
        else
          ({ isOnline := true, isSyncing := false, world := { w with syncQueue := [] } },
            List.replicate (6 - e.attempts) (syncItemCall e)) := by
  intro n
  induction n with
  | zero =>
    intro w e hq h5
    rw [if_pos (by omega)]
    have he : ({ e with attempts := e.attempts + 0 } : SyncQueue α) = e := rfl
    rw [he, ← hq]
    rfl
  | succ n ih =>
    intro w e hq h5
    show (let p := sync failAll _; let q := syncPasses failAll n p.1; (q.1, p.2 ++ q.2)) = _
    rcases Nat.lt_or_ge e.attempts 5 with hlt | hge
    · rw [sync_single_fail w hq hlt]
      simp only []
      rw [ih { w with syncQueue := [{ e with attempts := e.attempts + 1 }] }
        { e with attempts := e.attempts + 1 } rfl (by simp; omega)]
      by_cases hc : e.attempts + (n + 1) ≤ 5
      · rw [if_pos (by simp; omega), if_pos hc]
        have h1 : e.attempts + 1 + n = e.attempts + (n + 1) := by omega
        simp [h1, List.replicate_succ, syncItemCall_setAttempts]
      · rw [if_neg (by simp; omega), if_neg hc]
        have h1 : 6 - e.attempts = (6 - (e.attempts + 1)) + 1 := by omega
        rw [h1]
        simp [List.replicate_succ, syncItemCall_setAttempts]
    · have h5e : e.attempts = 5 := by omega
      rw [sync_single_evict w hq hge]
      simp only []
      rw [syncPasses_empty failAll _ rfl n]
      rw [if_neg (by omega)]
      simp [h5e]

/-- Coherence of the two renderings of sync(): the run-to-completion
function is syncWithBody applied to the non-throwing drain body. -/
lemma sync_eq_syncWithBody (ok : SyncQueue α → Bool) (e : Engine α) :
    (sync ok e).1 = (syncWithBody (fun w => ((drainPassT ok w).1, none)) e).1 := by
  by_cases h : (e.isSyncing || !e.isOnline) = true <;> simp [sync, syncWithBody, h]

/-! Claim theorems. -/

/-- A concrete always-failing outbox entry and its world, for the
retry-bound computation. -/
def c1Entry : SyncQueue Nat :=
  { id := 0, tableName := "tasks", operation := Operation.create, recordId := "r1",
    data := some 7, timestamp := 0, attempts := 0 }

def c1World : World Nat :=
  { syncQueue := [c1Entry], nextQid := 1, expenses := [], nextEid := 0, remote := [] }

/-- C1, counterexample: the claim says an always-failing entry is retried
exactly 5 times in total and is then removed.  On the code, after 5
drain passes (and hence 5 failed remote attempts) the entry is still in
the outbox with attempts = 5, because eviction tests the pre-increment
snapshot value (item.attempts at least 5); a 6th pass makes a 6th remote
attempt and only then deletes the entry. -/
theorem retry_bound_counterexample :
    (syncPasses failAll 5 { isOnline := true, isSyncing := false, world := c1World }).2.length = 5 ∧
    (syncPasses failAll 5 { isOnline := true, isSyncing := false, world := c1World }).1.world.syncQueue
        = [{ c1Entry with attempts := 5 }] ∧
    (syncPasses failAll 6 { isOnline := true, isSyncing := false, world := c1World }).2.length = 6 ∧
    (syncPasses failAll 6 { isOnline := true, isSyncing := false, world := c1World }).1.world.syncQueue
        = [] := by
  decide

/-- C1 (amended): an outbox entry whose replay always fails is retried 6
times in total, across however many drain passes, and then removed from
the outbox: after n drain passes with n at most 5 the entry is still
present with attempts = n, and n failing remote requests have been made;
the 6th pass makes a 6th failing request and evicts the entry; and no
pass ever writes the entity tables, so the synced flag of the associated
local record remains false permanently. -/
theorem retry_bound_amended (α : Type) (w : World α) (e : SyncQueue α)
    (hq : w.syncQueue = [e]) (ha : e.attempts = 0) :
    (∀ n, n ≤ 5 →
      (syncPasses failAll n { isOnline := true, isSyncing := false, world := w }).1.world.syncQueue
          = [{ e with attempts := n }] ∧
      (syncPasses failAll n { isOnline := true, isSyncing := false, world := w }).2.length = n) ∧
    (syncPasses failAll 6 { isOnline := true, isSyncing := false, world := w }).1.world.syncQueue
        = [] ∧
    (syncPasses failAll 6 { isOnline := true, isSyncing := false, world := w }).2.length = 6 ∧
    (∀ n, (syncPasses failAll n { isOnline := true, isSyncing := false, world := w }).1.world.expenses
        = w.expenses) := by
  have key := fun n => syncPasses_single_fail n w e hq (by omega)
  refine ⟨?_, ?_, ?_, ?_⟩
  · intro n hn
    rw [key n, if_pos (by omega)]
    constructor
    · simp [ha]
    · simp
  · rw [key 6, if_neg (by omega)]
  · rw [key 6, if_neg (by omega)]
    simp [ha]
  · intro n
    rw [key n]
    by_cases hc : e.attempts + n ≤ 5
    · rw [if_pos hc]
    · rw [if_neg hc]

theorem retry_bound_amended_witness :
    (syncPasses failAll 6 { isOnline := true, isSyncing := false, world := c1World }).1.world.syncQueue
        = [] :=
  (retry_bound_amended Nat c1World c1Entry rfl rfl).2.1

/-- A concrete world with one unsynced local expense row and the outbox
entry that will upsert it. -/
def c2Expense : Expense :=
  { id := 7, amount := 50, category := "Other", description := none, date := 0,
    createdAt := 0, owner_id := "u1", synced := false }

def c2Entry : SyncQueue Nat :=
  { id := 0, tableName := "expenses", operation := Operation.create, recordId := "7",
    data := some 99, timestamp := 0, attempts := 0 }

def c2World : World Nat :=
  { syncQueue := [c2Entry], nextQid := 1, expenses := [c2Expense], nextEid := 8, remote := [] }

/-- C2, counterexample: a drain in which the replay of the single entry
succeeds removes the entry from the outbox and lands the upsert
remotely, but the corresponding local expense row is untouched: its
synced flag is still false after the pass, where the claim says the
drain sets it to true. -/
theorem drain_success_counterexample :
    (sync allOk { isOnline := true, isSyncing := false, world := c2World }).1.world.syncQueue = [] ∧
    (sync allOk { isOnline := true, isSyncing := false, world := c2World }).1.world.remote
        = [(("expenses", "7"), 99)] ∧
    (sync allOk { isOnline := true, isSyncing := false, world := c2World }).1.world.expenses
        = [c2Expense] ∧
    c2Expense.synced = false := by
  decide

/-- C2 (amended): when every replay of a drain pass succeeds, each entry
is removed from the outbox (the queue drains to empty), but the engine
never writes the entity tables: the synced flag of the associated local
record is left unchanged (it stays false), not set to true. -/
theorem drain_success_amended (α : Type) (ok : SyncQueue α → Bool) (w : World α)
    (hok : ∀ e ∈ w.syncQueue, ok e = true) :
    (drainPass ok w).syncQueue = [] ∧ (drainPass ok w).expenses = w.expenses := by
  constructor
  · show ((drainPassT ok w).1).syncQueue = []
    rw [drainPassT_eq]
    exact foldl_processItem_allOk_nil ok w hok
  · show ((drainPassT ok w).1).expenses = w.expenses
    rw [drainPassT_eq]
    exact foldl_processItem_expenses ok _ w

theorem drain_success_amended_witness :
    (drainPass allOk c2World).syncQueue = [] :=
  (drain_success_amended Nat allOk c2World (by decide)).1

/-- C3: the snapshot a drain pass iterates over is the outbox in
insertion order, never reordered: on any queue whose rows are strictly
increasing under the snapshot ordering — which is how rows are created,
primary keys strictly increasing and enqueue timestamps nondecreasing —
the snapshot read returns the queue unchanged, so entries are processed
in ascending primary-key (insertion) order.  Consequently, replaying a
queue of mutations all targeting the same record, with every replay
succeeding, leaves the remote store holding exactly the state of the
last (most recent) entry: the final local state snapshotted in it. -/
theorem drain_order_convergence (α : Type) (w : World α) (tn rid : String)
    (hne : w.syncQueue ≠ [])
    (hchain : List.Chain' entryLex w.syncQueue)
    (hsame : ∀ e ∈ w.syncQueue, e.tableName = tn ∧ e.recordId = rid)
    (hdata : ∀ e ∈ w.syncQueue, e.operation = Operation.delete ∨ e.data.isSome = true) :
    sortByTimestamp w.syncQueue = w.syncQueue ∧
    rget (tn, rid) (drainPass allOk w).remote = finalState (w.syncQueue.getLast hne) := by
  have hsort := sortByTimestamp_eq_self hchain
  refine ⟨hsort, ?_⟩
  show rget (tn, rid) ((drainPassT allOk w).1).remote = _
  rw [drainPassT_eq, hsort]
  calc rget (tn, rid) ((w.syncQueue.foldl (processItem allOk) w).remote)
      = rget (tn, rid) (w.syncQueue.foldl (fun r i => syncItemApply i r) w.remote) := by
        rw [foldl_processItem_remote_allOk]
    _ = finalState (w.syncQueue.getLast hne) :=
        rget_foldl_syncItemApply tn rid w.syncQueue hne w.remote hsame hdata

/-- Two concrete offline edits to the same record, in creation order. -/
def c3EntryA : SyncQueue Nat :=
  { id := 0, tableName := "notes", operation := Operation.create, recordId := "n1",
    data := some 1, timestamp := 10, attempts := 0 }

def c3EntryB : SyncQueue Nat :=
  { id := 1, tableName := "notes", operation := Operation.update, recordId := "n1",
    data := some 2, timestamp := 10, attempts := 0 }

def c3World : World Nat :=
  { syncQueue := [c3EntryA, c3EntryB], nextQid := 2, expenses := [], nextEid := 0, remote := [] }

theorem drain_order_convergence_witness :
    sortByTimestamp c3World.syncQueue = c3World.syncQueue :=
  (drain_order_convergence Nat c3World "notes" "n1" (by decide)
    (List.chain'_cons.mpr ⟨by decide, List.chain'_singleton c3EntryB⟩)
    (by decide) (by decide)).1

/-- C4: a failing entry below the eviction bound is retry-incremented
and kept.  For any drain pass over a queue with distinct primary keys
(as Dexie auto-increment guarantees), an entry whose replay fails and
whose snapshot attempt count is below 5 is still in the outbox after the
pass, unchanged except that its attempts column was incremented by one —
available for retry on a later drain. -/
theorem fail_increment_kept (α : Type) (ok : SyncQueue α → Bool) (w : World α)
    (e : SyncQueue α) (hmem : e ∈ w.syncQueue)
    (hnodup : (w.syncQueue.map SyncQueue.id).Nodup)
    (hfail : ok e = false) (h5 : e.attempts < 5) :
    { e with attempts := e.attempts + 1 } ∈ (drainPass ok w).syncQueue := by
  show _ ∈ ((drainPassT ok w).1).syncQueue
  rw [drainPassT_eq]
  have hmemS : e ∈ sortByTimestamp w.syncQueue := mem_sortByTimestamp.mpr hmem
  obtain ⟨A, B, hAB⟩ := List.append_of_mem hmemS
  have hndS : ((sortByTimestamp w.syncQueue).map SyncQueue.id).Nodup :=
    (((sortByTimestamp_perm w.syncQueue).map SyncQueue.id).nodup_iff).mpr hnodup
  rw [hAB] at hndS
  rw [List.map_append, List.map_cons] at hndS
  have hdisj := (List.nodup_append.mp hndS).2.2
  have hmid := (List.nodup_append.mp hndS).2.1
  have hA : ∀ i ∈ A, e.id ≠ i.id := by
    intro i hi h
    exact hdisj (h ▸ List.mem_map_of_mem SyncQueue.id hi) (List.mem_cons_self _ _)
  have hB : ∀ i ∈ B, e.id ≠ i.id := by
    intro i hi h
    exact (List.nodup_cons.mp hmid).1 (h ▸ List.mem_map_of_mem SyncQueue.id hi)
  rw [hAB, List.foldl_append, List.foldl_cons]
  have h1 : e ∈ (A.foldl (processItem ok) w).syncQueue :=
    foldl_processItem_mem ok A w hA hmem
  have h2 := processItem_mem_fail ok (A.foldl (processItem ok) w) hfail h5 h1
  exact foldl_processItem_mem ok B _ (fun i hi => hB i hi) h2

def c4Entry : SyncQueue Nat :=
  { id := 3, tableName := "habits", operation := Operation.update, recordId := "h1",
    data := some 4, timestamp := 2, attempts := 2 }

def c4World : World Nat :=
  { syncQueue := [c4Entry], nextQid := 4, expenses := [], nextEid := 0, remote := [] }

theorem fail_increment_kept_witness :
    { c4Entry with attempts := c4Entry.attempts + 1 } ∈ (drainPass failAll c4World).syncQueue :=
  fail_increment_kept Nat failAll c4World c4Entry (by decide) (by decide) rfl (by decide)

/-- C5, counterexample: createExpense is an entity-mutating operation
(it appends the new expense row to the local store, with success
reported), yet it appends no outbox entry: the syncQueue is exactly as
empty after the call as before, where the claim says a corresponding
outbox entry is enqueued immediately after the local write. -/
theorem mutation_enqueues_counterexample :
    ((createExpense (fun s => s) 0 50 "Other" none "u1" (emptyWorld Nat)).2).syncQueue = [] ∧
    ((createExpense (fun s => s) 0 50 "Other" none "u1" (emptyWorld Nat)).2).expenses.length = 1 ∧
    (createExpense (fun s => s) 0 50 "Other" none "u1" (emptyWorld Nat)).1.success = true := by
  decide

/-- C5 (amended): addToQueue is the only writer of the outbox among the
modeled operations, but entity-mutating operations do not call it:
a successful createExpense appends the expense row to the local store
with synced = false and leaves the outbox (and the remote store)
completely untouched — no outbox entry is enqueued. -/
theorem mutation_enqueues_amended (α : Type) (san : String → String) (now : Nat)
    (amount : Rat) (cat : String) (desc : Option String) (uid : String) (w : World α)
    (hpos : 0 < amount) (hle : amount ≤ 999999) :
    ((createExpense san now amount cat desc uid w).2).syncQueue = w.syncQueue ∧
    ((createExpense san now amount cat desc uid w).2).remote = w.remote ∧
    ((createExpense san now amount cat desc uid w).2).expenses =
      w.expenses ++
        [{ id := w.nextEid, amount := amount,
           category := if cat ∈ VALID_CATEGORIES then cat else "Other",
           description := desc.map san, date := now, createdAt := now,
           owner_id := uid, synced := false }] := by
  unfold createExpense
  rw [if_neg (not_le.mpr hpos), if_neg (not_lt.mpr hle)]
  exact ⟨rfl, rfl, rfl⟩

theorem mutation_enqueues_amended_witness :
    ((createExpense (fun s => s) 3 50 "Other" none "u1" (emptyWorld Nat)).2).syncQueue
        = (emptyWorld Nat).syncQueue :=
  (mutation_enqueues_amended Nat (fun s => s) 3 50 "Other" none "u1" (emptyWorld Nat)
    (by norm_num) (by norm_num)).1

/-- C6: a call to sync() made while a drain pass is in flight is a
complete no-op — the guard returns before the flag write, the snapshot
read, or any remote request, leaving the configuration untouched and
issuing no call — and isSyncing stays true under every event other than
the completion (or abort) of the in-flight pass, so it cannot toggle to
false and back to true between the two calls. -/
theorem reentrant_drain_noop (α : Type) (c : Config α) (h : c.isSyncing = true) :
    step Event.syncStart c = (c, []) ∧
    ∀ ev : Event α, ev ≠ Event.drainDone → ev ≠ Event.drainAbort →
      ((step ev c).1).isSyncing = true := by
  constructor
  · simp [step, startGuard, h]
  · intro ev h1 h2
    cases ev with
    | offline => simp [step, h]
    | online => simp [step, startGuard, h]
    | syncStart => simp [step, startGuard, h]
    | readQueue =>
      cases hd : c.draining with
      | none => simp [step, hd, h]
      | some ph =>
        cases ph with
        | reading => simp [step, hd, h]
        | looping rest => simp [step, hd, h]
    | drainItem ok =>
      cases hd : c.draining with
      | none => simp [step, hd, h]
      | some ph =>
        cases ph with
        | reading => simp [step, hd, h]
        | looping rest =>
          cases rest with
          | nil => simp [step, hd, h]
          | cons a rest2 => simp [step, hd, h]
    | drainDone => exact absurd rfl h1
    | drainAbort => exact absurd rfl h2
    | enqueue tn op rid d now =>
      cases ho : c.isOnline <;> simp [step, startGuard, h, ho]

/-- A configuration with a drain pass in flight. -/
def c6Config : Config Nat :=
  { isOnline := true, isSyncing := true, world := emptyWorld Nat,
    draining := some (DrainPhase.looping []) }

theorem reentrant_drain_noop_witness :
    step Event.syncStart c6Config = (c6Config, []) :=
  (reentrant_drain_noop Nat c6Config rfl).1

/-- C7, counterexample: the conjunction of isSyncing with not isOnline
is reachable.  From a freshly constructed online engine, a sync() call
passes the guard, raises isSyncing and suspends at the snapshot read;
the offline callback then fires and clears isOnline while the drain is
still in flight — refuting the claim that isSyncing is never true while
isOnline is false, precisely in the case the claim extends to (an
offline transition during an in-flight drain). -/
theorem syncing_offline_counterexample :
    (reach (initConfig Nat true) [Event.syncStart, Event.offline]).isSyncing = true ∧
    (reach (initConfig Nat true) [Event.syncStart, Event.offline]).isOnline = false := by
  decide

/-- C7 (amended): drain passes are only started while online — any step
that raises isSyncing from false to true leaves the engine online at
that moment — but the conjunction is not excluded afterwards: an
offline transition during an in-flight drain leaves isSyncing true
while isOnline is false until the pass completes, as the counterexample
exhibits. -/
theorem syncing_only_starts_online (α : Type) (c : Config α) (ev : Event α)
    (h0 : c.isSyncing = false) (h1 : ((step ev c).1).isSyncing = true) :
    ((step ev c).1).isOnline = true := by
  cases ev with
  | offline => simp [step, h0] at h1
  | online => simp only [step, startGuard]; split <;> simp
  | syncStart =>
    cases ho : c.isOnline with
    | false => simp [step, startGuard, h0, ho] at h1
    | true => simp [step, startGuard, h0, ho]
  | readQueue =>
    cases hd : c.draining with
    | none => simp [step, hd, h0] at h1
    | some ph =>
      cases ph with
      | reading => simp [step, hd, h0] at h1
      | looping rest => simp [step, hd, h0] at h1
  | drainItem ok =>
    cases hd : c.draining with
    | none => simp [step, hd, h0] at h1
    | some ph =>
      cases ph with
      | reading => simp [step, hd, h0] at h1
      | looping rest =>
        cases rest with
        | nil => simp [step, hd, h0] at h1
        | cons a rest2 => simp [step, hd, h0] at h1
  | drainDone =>
    cases hd : c.draining with
    | none => simp [step, hd, h0] at h1
    | some ph =>
      cases ph with
      | reading => simp [step, hd, h0] at h1
      | looping rest =>
        cases rest with
        | nil => simp [step, hd] at h1
        | cons a rest2 => simp [step, hd, h0] at h1
  | drainAbort =>
    cases hd : c.draining with
    | none => simp [step, hd, h0] at h1
    | some ph => simp [step, hd] at h1
  | enqueue tn op rid d now =>
    cases ho : c.isOnline with
    | false => simp [step, startGuard, h0, ho] at h1
    | true => simp [step, startGuard, h0, ho]

theorem syncing_only_starts_online_witness :
    ((step Event.syncStart (initConfig Nat true)).1).isOnline = true :=
  syncing_only_starts_online Nat (initConfig Nat true) Event.syncStart rfl (by decide)

/-- C8: an enqueue while offline appends exactly one outbox row,
carrying attempts = 0 and the current timestamp, triggers no sync and
hence no remote request, and changes nothing else: after the call the
entry is present at the tail of the queue, untouched, and the flags,
entity tables and remote store are as before. -/
theorem offline_enqueue (α : Type) (ok : SyncQueue α → Bool) (now : Nat) (tn : String)
    (op : Operation) (rid : String) (d : Option α) (e : Engine α)
    (hoff : e.isOnline = false) :
    addToQueue ok now tn op rid d e =
      ({ isOnline := e.isOnline, isSyncing := e.isSyncing,
         world :=
           { syncQueue := e.world.syncQueue ++
               [{ id := e.world.nextQid, tableName := tn, operation := op,
                  recordId := rid, data := d, timestamp := now, attempts := 0 }],
             nextQid := e.world.nextQid + 1, expenses := e.world.expenses,
             nextEid := e.world.nextEid, remote := e.world.remote } }, []) := by
  simp [addToQueue, hoff]

theorem offline_enqueue_witness :
    addToQueue (failAll (α := Nat)) 5 "tasks" Operation.create "r1" (some 3)
        { isOnline := false, isSyncing := false, world := emptyWorld Nat } =
      ({ isOnline := false, isSyncing := false,
         world :=
           { syncQueue := [{ id := 0, tableName := "tasks", operation := Operation.create,
                             recordId := "r1", data := some 3, timestamp := 5, attempts := 0 }],
             nextQid := 1, expenses := [], nextEid := 0, remote := [] } }, []) := by
  have h := offline_enqueue Nat failAll 5 "tasks" Operation.create "r1" (some 3)
    { isOnline := false, isSyncing := false, world := emptyWorld Nat } rfl
  simpa using h

/-- C9: within a drain pass no per-entry failure aborts the loop or
escapes drain(): for every replay-outcome oracle the loop body, run in
the exception monad, returns normally (never Except.error), and its
trace contains exactly one remote request per snapshot entry, in
snapshot order, regardless of which entries succeed, fail and are
retry-incremented, or are evicted. -/
theorem per_entry_errors_swallowed (α : Type) (ok : SyncQueue α → Bool) (w : World α) :
    drainBody ok w =
      Except.ok ((sortByTimestamp w.syncQueue).foldl (processItem ok) w,
        (sortByTimestamp w.syncQueue).map syncItemCall) := by
  unfold drainBody
  rw [foldlM_drainStep]
  simp

/-- C10: an invocation of sync() that passes the guard (entered with
isSyncing false while online) leaves isSyncing false on return whatever
the try-block body does — finish normally or throw partway through —
because the flag is reset in the finally clause; isSyncing can never
remain stuck at true after sync() returns. -/
theorem syncing_flag_reset (α : Type) (body : World α → World α × Option String)
    (e : Engine α) (h0 : e.isSyncing = false) (h1 : e.isOnline = true) :
    ((syncWithBody body e).1).isSyncing = false := by
  simp [syncWithBody, h0, h1]

theorem syncing_flag_reset_witness :
    ((syncWithBody (fun w => (w, some "boom"))
        { isOnline := true, isSyncing := false, world := emptyWorld Nat }).1).isSyncing = false :=
  syncing_flag_reset Nat (fun w => (w, some "boom")) _ rfl rfl

end LifeOS
